import Mathlib

/-!
Verification of the shipping-broker report extraction pipeline.

Shallow embedding of the Python sources:
  - `src/Affinity/extract_affinity_tables.py`
  - `src/Fearnleys/extract_fearnleys.py`
  - `src/Gibsons/extract_gibson_tables.py`
  - `src/Poten/.../extract_poten.py`

Strings are modelled as `List Char` (`Str`).  Regular-expression matches in
the source are embedded as explicit character-level parsing functions; each
embedding is annotated with the regex it models.  Python `datetime`
construction (which raises on invalid dates) is modelled by
`mkDatetime?` returning `Option`.
-/

set_option maxHeartbeats 1000000

namespace Broker

/-- Strings, modelled as lists of characters. -/
abbrev Str := List Char

/-- Coerce a Lean string literal to the `Str` model. -/
def str (s : String) : Str := s.data

/-- Python whitespace characters relevant to `str.strip()` and regex `\s`
(ASCII range; the inputs at issue are ASCII apart from NBSP, which the
normalizers remove first). -/
def isSpaceP (c : Char) : Bool :=
  c = ' ' || c = '\t' || c = '\n' || c = '\r' || c = '\x0b' || c = '\x0c'

def isDigitP (c : Char) : Bool := '0' ≤ c && c ≤ '9'

def isAlphaP (c : Char) : Bool :=
  ('A' ≤ c && c ≤ 'Z') || ('a' ≤ c && c ≤ 'z')

def isUpperP (c : Char) : Bool := 'A' ≤ c && c ≤ 'Z'

/-- Python `str.strip()`: drop leading and trailing whitespace. -/
def pstrip (s : Str) : Str :=
  ((s.dropWhile isSpaceP).reverse.dropWhile isSpaceP).reverse

/-- ASCII lower-casing of one character (Python `str.lower()` on the
ASCII letters appearing in month and bucket names). -/
def lowerC (c : Char) : Char :=
  if isUpperP c then Char.ofNat (c.toNat + 32) else c

def lowerS (s : Str) : Str := s.map lowerC

/-- ASCII upper-casing of one character (Python `str.upper()`). -/
def upperC (c : Char) : Char :=
  if 'a' ≤ c && c ≤ 'z' then Char.ofNat (c.toNat - 32) else c

def upperS (s : Str) : Str := s.map upperC

/-- Split on newline characters (Python `text.split("\n")`). -/
def splitNL : Str → List Str
  | [] => [[]]
  | c :: rest =>
    match splitNL rest with
    | [] => [[c]]
    | h :: t => if c = '\n' then [] :: h :: t else (c :: h) :: t

/-- Numeric value of a digit string (Python `int` on a digit group). -/
def digitsToNat (s : Str) : ℕ :=
  s.foldl (fun a c => 10 * a + (c.toNat - '0'.toNat)) 0

/-! ## Text normalizers (`normalize_text` in each source file)

`s.replace("\r\n", "\n").replace("\r", "\n")` scans left to right, so a
`"\r\n"` pair becomes one `"\n"` and every remaining `"\r"` becomes
`"\n"`. -/

def normCR : Str → Str
  | [] => []
  | '\r' :: '\n' :: rest => '\n' :: normCR rest
  | '\r' :: rest => '\n' :: normCR rest
  | c :: rest => c :: normCR rest

/-- Non-breaking space U+00A0. -/
def nbspC : Char := Char.ofNat 0xA0
/-- En dash U+2013. -/
def enDashC : Char := Char.ofNat 0x2013
/-- Em dash U+2014. -/
def emDashC : Char := Char.ofNat 0x2014

/-- `normalize_text` in `extract_affinity_tables.py` and
`extract_gibson_tables.py`: CRLF/CR → LF, NBSP → space.  (These two files
do not touch dash characters.) -/
def normalizeA (s : Str) : Str :=
  (normCR s).map (fun c => if c = nbspC then ' ' else c)

/-- `normalize_text` in `extract_fearnleys.py` and `extract_poten.py`:
CRLF/CR → LF, NBSP → space, en/em dash → hyphen. -/
def normalizeF (s : Str) : Str :=
  (normalizeA s).map (fun c => if c = enDashC || c = emDashC then '-' else c)

/-! ## Calendar model (Python `calendar` / `datetime`) -/

/-- Gregorian leap year (`calendar.isleap`). -/
def isLeap (y : ℕ) : Bool :=
  y % 4 = 0 && (y % 100 ≠ 0 || y % 400 = 0)

/-- `calendar.monthrange(year, month)[1]`: number of days in the month. -/
def daysInMonth (y m : ℕ) : ℕ :=
  if m = 2 then (if isLeap y then 29 else 28)
  else if m = 4 || m = 6 || m = 9 || m = 11 then 30
  else 31

/-- `month_end_day` in `extract_fearnleys.py`. -/
def month_end_day (year month : ℕ) : ℕ := daysInMonth year month

/-- A Python `datetime` as produced by this pipeline: midnight dates from
`datetime(y, m, d)`, plus a possible 12:00 component introduced by midpoint
arithmetic. -/
structure PyDateTime where
  year : ℕ
  month : ℕ
  day : ℕ
  hour : ℕ
  deriving DecidableEq, Repr

/-- `datetime(year, month, day)`: raises (here: `none`) unless
`MINYEAR ≤ year ≤ MAXYEAR`, `1 ≤ month ≤ 12` and the day exists in that
month. -/
def mkDatetime? (y m d : ℕ) : Option PyDateTime :=
  if 1 ≤ y ∧ y ≤ 9999 ∧ 1 ≤ m ∧ m ≤ 12 ∧ 1 ≤ d ∧ d ≤ daysInMonth y m then
    some ⟨y, m, d, 0⟩
  else none

/-- Python `datetime` comparison (lexicographic). -/
def dtLt (a b : PyDateTime) : Prop :=
  a.year < b.year ∨ (a.year = b.year ∧
    (a.month < b.month ∨ (a.month = b.month ∧
      (a.day < b.day ∨ (a.day = b.day ∧ a.hour < b.hour)))))

instance (a b : PyDateTime) : Decidable (dtLt a b) := by
  unfold dtLt; infer_instance

/-- `start + (end - start) / 2` for two midnight datetimes in the same year
and month: the timedelta is `(e.day - s.day)` days, its exact half is
`(e.day - s.day) * 12` hours, so the midpoint sits `s.day + e.day` half-days
into the month: day `(s.day + e.day) / 2`, hour 12 when that sum is odd.
This models Python's exact timedelta arithmetic (also for `e.day < s.day`). -/
def midSameMonth (s e : PyDateTime) : PyDateTime :=
  ⟨s.year, s.month, (s.day + e.day) / 2, 12 * ((s.day + e.day) % 2)⟩

end Broker

namespace Broker

/-- Maximal run of characters satisfying `p`, with the remainder. -/
def takeRun (p : Char → Bool) (s : Str) : Str × Str :=
  (s.takeWhile p, s.dropWhile p)

/-- Result triple of a date-range resolver: (start, end, midpoint). -/
abbrev DR3 := Option PyDateTime × Option PyDateTime × Option PyDateTime

/-- `MONTH_MAP` in `extract_fearnleys.py` (also `MONTH_ABBR` in
`extract_poten.py`): the dict `{jan: 1, feb: 2, ..., dec: 12}` built from
`calendar.month_abbr`, written out as a 12-way lookup. -/
def monthMapF (mon : Str) : Option ℕ :=
  if mon = str "jan" then some 1
  else if mon = str "feb" then some 2
  else if mon = str "mar" then some 3
  else if mon = str "apr" then some 4
  else if mon = str "may" then some 5
  else if mon = str "jun" then some 6
  else if mon = str "jul" then some 7
  else if mon = str "aug" then some 8
  else if mon = str "sep" then some 9
  else if mon = str "oct" then some 10
  else if mon = str "nov" then some 11
  else if mon = str "dec" then some 12
  else none

/-- `MONTH_FULL` in `extract_poten.py`: the dict
`{january: 1, ..., december: 12}` built from `calendar.month_name`. -/
def monthFullP (mon : Str) : Option ℕ :=
  if mon = str "january" then some 1
  else if mon = str "february" then some 2
  else if mon = str "march" then some 3
  else if mon = str "april" then some 4
  else if mon = str "may" then some 5
  else if mon = str "june" then some 6
  else if mon = str "july" then some 7
  else if mon = str "august" then some 8
  else if mon = str "september" then some 9
  else if mon = str "october" then some 10
  else if mon = str "november" then some 11
  else if mon = str "december" then some 12
  else none

end Broker

namespace Broker.Fearnleys

open Broker

/-- The named relative buckets of `extract_fearnleys.py`. -/
inductive BucketF where
  | early
  | mid
  | late
  | endOfMonth
  deriving DecidableEq, Repr

/-- `RELATIVE_BUCKETS` in `extract_fearnleys.py`:
`{"early": (1, 10), "mid": (11, 20), "late": (21, 28), "end": (25, 31)}`. -/
def RELATIVE_BUCKETS : BucketF → ℕ × ℕ
  | .early => (1, 10)
  | .mid => (11, 20)
  | .late => (21, 28)
  | .endOfMonth => (25, 31)

/-- Parsed form of a Fearnleys ETA expression (the three regexes of
`parse_eta_dates`, tried in order). -/
inductive EtaExprF where
  | range (d1 d2 : ℕ) (mon : Str)
  | single (d : ℕ) (mon : Str)
  | bucket (b : BucketF) (mon : Str)
  deriving DecidableEq, Repr

/-- Regex `^(\d{1,2})\s*-\s*(\d{1,2})\s*([A-Za-z]{3})$` (case-insensitive).
A digit run of length 3+ cannot match `\d{1,2}` here, since after
backtracking the next char would still be a digit, matching neither `\s`
nor `-` (nor a letter); so maximal runs of length 1–2 are exact. -/
def parseDayRangeTok (s : Str) : Option (ℕ × ℕ × Str) :=
  let (ds1, r1) := takeRun isDigitP s
  if ds1.length = 0 ∨ ds1.length > 2 then none else
  match r1.dropWhile isSpaceP with
  | '-' :: r3 =>
    let r4 := r3.dropWhile isSpaceP
    let (ds2, r5) := takeRun isDigitP r4
    if ds2.length = 0 ∨ ds2.length > 2 then none else
    let r6 := r5.dropWhile isSpaceP
    let (al, r7) := takeRun isAlphaP r6
    if al.length = 3 ∧ r7 = [] then some (digitsToNat ds1, digitsToNat ds2, al)
    else none
  | _ => none

/-- Regex `^(\d{1,2})\s*([A-Za-z]{3})$` (case-insensitive). -/
def parseSingleDayTok (s : Str) : Option (ℕ × Str) :=
  let (ds, r1) := takeRun isDigitP s
  if ds.length = 0 ∨ ds.length > 2 then none else
  let r2 := r1.dropWhile isSpaceP
  let (al, r3) := takeRun isAlphaP r2
  if al.length = 3 ∧ r3 = [] then some (digitsToNat ds, al) else none

/-- Regex `^(Early|Mid|Late|End)\s+([A-Za-z]{3})$` (case-insensitive).
The alternation word is always followed by `\s+`, so it must equal the
maximal leading letter run. -/
def parseBucketTok (s : Str) : Option (BucketF × Str) :=
  let (w, r1) := takeRun isAlphaP s
  let b? : Option BucketF :=
    if lowerS w = str "early" then some .early
    else if lowerS w = str "mid" then some .mid
    else if lowerS w = str "late" then some .late
    else if lowerS w = str "end" then some .endOfMonth
    else none
  match b? with
  | none => none
  | some b =>
    match r1 with
    | c :: _ =>
      if isSpaceP c then
        let r2 := r1.dropWhile isSpaceP
        let (al, r3) := takeRun isAlphaP r2
        if al.length = 3 ∧ r3 = [] then some (b, al) else none
      else none
    | [] => none

/-- The three regexes of `parse_eta_dates`, first match wins. -/
def parseEtaExprF (s : Str) : Option EtaExprF :=
  match parseDayRangeTok s with
  | some (d1, d2, mon) => some (.range d1 d2 mon)
  | none =>
    match parseSingleDayTok s with
    | some (d, mon) => some (.single d mon)
    | none =>
      match parseBucketTok s with
      | some (b, mon) => some (.bucket b mon)
      | none => none

/-- `infer_year` in `extract_fearnleys.py`.  `datetime.now().year` is
supplied as the explicit parameter `nowYear`. -/
def infer_year (nowYear : ℕ) (ref_dt : Option PyDateTime) (month : ℕ) : ℕ :=
  match ref_dt with
  | none => nowYear
  | some r => if r.month = 12 ∧ month = 1 then r.year + 1 else r.year

/-- `parse_eta_dates` in `extract_fearnleys.py`. -/
def parse_eta_dates (eta_raw : Str) (ref_dt : Option PyDateTime) (nowYear : ℕ) : DR3 :=
  if eta_raw = [] then (none, none, none) else
  match parseEtaExprF (pstrip (normalizeF eta_raw)) with
  | some (.range d1 d2 mon) =>
    match monthMapF (lowerS mon) with
    | none => (none, none, none)
    | some month =>
      let year := infer_year nowYear ref_dt month
      match mkDatetime? year month d1, mkDatetime? year month d2 with
      | some s1, some e1 => (some s1, some e1, some (midSameMonth s1 e1))
      | _, _ => (none, none, none)
  | some (.single d mon) =>
    match monthMapF (lowerS mon) with
    | none => (none, none, none)
    | some month =>
      let year := infer_year nowYear ref_dt month
      match mkDatetime? year month d with
      | some s1 => (some s1, some s1, some s1)
      | none => (none, none, none)
  | some (.bucket b mon) =>
    match monthMapF (lowerS mon) with
    | none => (none, none, none)
    | some month =>
      let year := infer_year nowYear ref_dt month
      let d1 := (RELATIVE_BUCKETS b).1
      let d2 := min (RELATIVE_BUCKETS b).2 (month_end_day year month)
      match mkDatetime? year month d1, mkDatetime? year month d2 with
      | some s1, some e1 => (some s1, some e1, some (midSameMonth s1 e1))
      | _, _ => (none, none, none)
  | none => (none, none, none)

end Broker.Fearnleys

namespace Broker.Poten

open Broker

/-- Regex `^\s*(\d{1,2})\s*-\s*(\d{1,2})\s+([A-Za-z]+)\s*$`
(`ETA_RANGE_RE` in `extract_poten.py`).  The month group is a maximal
letter run of any positive length, followed only by whitespace. -/
def parseEtaRangeTokP (s : Str) : Option (ℕ × ℕ × Str) :=
  let r0 := s.dropWhile isSpaceP
  let (ds1, r1) := takeRun isDigitP r0
  if ds1.length = 0 ∨ ds1.length > 2 then none else
  match r1.dropWhile isSpaceP with
  | '-' :: r3 =>
    let r4 := r3.dropWhile isSpaceP
    let (ds2, r5) := takeRun isDigitP r4
    if ds2.length = 0 ∨ ds2.length > 2 then none else
    match r5 with
    | c :: _ =>
      if isSpaceP c then
        let r6 := r5.dropWhile isSpaceP
        let (al, r7) := takeRun isAlphaP r6
        if al.length ≥ 1 ∧ r7.dropWhile isSpaceP = [] then
          some (digitsToNat ds1, digitsToNat ds2, al)
        else none
      else none
    | [] => none
  | _ => none

/-- `infer_year` in `extract_poten.py` (textually identical to the
Fearnleys one); `datetime.now().year` passed as `nowYear`. -/
def infer_year (nowYear : ℕ) (ref_dt : Option PyDateTime) (month : ℕ) : ℕ :=
  match ref_dt with
  | none => nowYear
  | some r => if r.month = 12 ∧ month = 1 then r.year + 1 else r.year

/-- `MONTH_FULL.get(x) or MONTH_ABBR.get(x)` in `parse_eta_range`
(month numbers 1..12 are always truthy). -/
def monthLookupP (mon : Str) : Option ℕ :=
  match monthFullP mon with
  | some k => some k
  | none => monthMapF mon

/-- `parse_eta_range` in `extract_poten.py`. -/
def parse_eta_range (eta_str : Str) (ref_dt : Option PyDateTime) (nowYear : ℕ) : DR3 :=
  if eta_str = [] then (none, none, none) else
  match parseEtaRangeTokP (pstrip (normalizeF eta_str)) with
  | none => (none, none, none)
  | some (d1, d2, mon) =>
    match monthLookupP (lowerS mon) with
    | none => (none, none, none)
    | some month =>
      let year := infer_year nowYear ref_dt month
      match mkDatetime? year month d1, mkDatetime? year month d2 with
      | some s1, some e1 => (some s1, some e1, some (midSameMonth s1 e1))
      | _, _ => (none, none, none)

end Broker.Poten

namespace Broker.Affinity

open Broker

/-- `list(calendar.month_abbr).index(mon)` in `extract_affinity_tables.py`:
the position of the exact title-case abbreviation in
`['', 'Jan', ..., 'Dec']`; `none` when absent (in Python this raises an
uncaught `ValueError`).  The empty entry at index 0 never equals a
3-letter group. -/
def monthIndexTitle (mon : Str) : Option ℕ :=
  if mon = str "Jan" then some 1
  else if mon = str "Feb" then some 2
  else if mon = str "Mar" then some 3
  else if mon = str "Apr" then some 4
  else if mon = str "May" then some 5
  else if mon = str "Jun" then some 6
  else if mon = str "Jul" then some 7
  else if mon = str "Aug" then some 8
  else if mon = str "Sep" then some 9
  else if mon = str "Oct" then some 10
  else if mon = str "Nov" then some 11
  else if mon = str "Dec" then some 12
  else none

/-- `datetime.strptime(s[:10], "%Y-%m-%d")`: exactly `YYYY-MM-DD` over the
first ten characters, validated as a calendar date. -/
def parseYMD (s : Str) : Option PyDateTime :=
  match s.take 10 with
  | [y1, y2, y3, y4, h1, m1, m2, h2, d1, d2] =>
    if h1 = '-' ∧ h2 = '-' ∧ [y1, y2, y3, y4, m1, m2, d1, d2].all isDigitP then
      mkDatetime? (digitsToNat [y1, y2, y3, y4]) (digitsToNat [m1, m2])
        (digitsToNat [d1, d2])
    else none
  | _ => none

/-- Regex `(\d{1,2})-(\d{1,2})\s+([A-Za-z]{3})` under `re.match` (prefix
match, no end anchor): day, hyphen (no surrounding whitespace), day, at
least one whitespace, then three letters; anything may follow. -/
def parseAffRangeTok (s : Str) : Option (ℕ × ℕ × Str) :=
  let (ds1, r1) := takeRun isDigitP s
  if ds1.length = 0 ∨ ds1.length > 2 then none else
  match r1 with
  | '-' :: r2 =>
    let (ds2, r3) := takeRun isDigitP r2
    if ds2.length = 0 ∨ ds2.length > 2 then none else
    match r3 with
    | c :: _ =>
      if isSpaceP c then
        match r3.dropWhile isSpaceP with
        | a1 :: a2 :: a3 :: _ =>
          if isAlphaP a1 ∧ isAlphaP a2 ∧ isAlphaP a3 then
            some (digitsToNat ds1, digitsToNat ds2, [a1, a2, a3])
          else none
        | _ => none
      else none
    | [] => none
  | _ => none

/-- `parse_eta_range` in `extract_affinity_tables.py`.  Returns
`some (start, end)`; the outer `none` models the uncaught `ValueError`
raised by `list(calendar.month_abbr).index` when the 3-letter group is not
a title-case month abbreviation.  Note: no year-rollover handling — the
email year is used as-is. -/
def parse_eta_range (nowYear : ℕ) (eta_str email_sent_str : Str) :
    Option (Option PyDateTime × Option PyDateTime) :=
  if eta_str = [] then some (none, none) else
  match parseAffRangeTok (pstrip eta_str) with
  | none => some (none, none)
  | some (d1, d2, mon) =>
    let year :=
      match (if email_sent_str = [] then none else parseYMD email_sent_str) with
      | some r => r.year
      | none => nowYear
    match monthIndexTitle mon with
    | none => none
    | some month =>
      match mkDatetime? year month d1, mkDatetime? year month d2 with
      | some a, some b => some (some a, some b)
      | _, _ => some (none, none)

end Broker.Affinity

namespace Broker.Affinity

/-- A line matching `(?im)^\s*USG\s*$`: its stripped content is `usg`
case-insensitively.  (`\s*` may spill over adjacent blank lines in the
flat-text regex; that only shifts blank lines, which the cell split
discards, so the line-level model is equivalent.) -/
def usgLine (l : Str) : Bool := lowerS (pstrip l) = str "usg"

/-- A line matching `(?im)^\s*Notes\s*$`. -/
def notesLine (l : Str) : Bool := lowerS (pstrip l) = str "notes"

/-- The lines after the first line satisfying `p`, or `none`
(`re.search` of a line-anchored pattern). -/
def afterAnchor (p : Str → Bool) : List Str → Option (List Str)
  | [] => none
  | l :: rest => if p l then some rest else afterAnchor p rest

/-- `extract_usg_cells` in `extract_affinity_tables.py`: find the `USG`
header line, then the `Notes` header line after it, and return the
stripped non-empty lines that follow; `none` if either anchor is absent. -/
def extract_usg_cells (body : Str) : Option (List Str) :=
  let lines := splitNL (normalizeA body)
  match afterAnchor usgLine lines with
  | none => none
  | some rest =>
    match afterAnchor notesLine rest with
    | none => none
    | some data => some ((data.map pstrip).filter (fun l => l ≠ []))

/-- `BUILT_RE = ^(?:\*|\d{4})$`. -/
def isBuiltTok (s : Str) : Bool :=
  s = ['*'] || (s.length = 4 && s.all isDigitP)

/-- `(?:,\d{3})*` — a sequence of comma-plus-three-digit groups. -/
def commaGroups : Str → Bool
  | [] => true
  | ',' :: a :: b :: c :: rest => isDigitP a && isDigitP b && isDigitP c && commaGroups rest
  | _ => false

/-- `CBM_RE = ^(?:\*|\d{1,3}(?:,\d{3})+|\d+)$`.  For the grouped branch the
leading digit run is maximal: a shorter backtracked head would leave a digit
where `,` is required. -/
def isCbmTok (s : Str) : Bool :=
  s = ['*'] ||
  (let p := takeRun isDigitP s
   (1 ≤ p.1.length && p.1.length ≤ 3) && !(p.2 = []) && commaGroups p.2) ||
  (!(s = []) && s.all isDigitP)

/-- `ETA_RE = ^\d{1,2}(?:-\d{1,2})?\s+[A-Za-z]{3}$`. -/
def isEtaTok (s : Str) : Bool :=
  let p1 := takeRun isDigitP s
  if p1.1.length = 0 ∨ p1.1.length > 2 then false else
  let afterDays : Option Str :=
    match p1.2 with
    | '-' :: r =>
      let p2 := takeRun isDigitP r
      if p2.1.length = 0 ∨ p2.1.length > 2 then none else some p2.2
    | r => some r
  match afterDays with
  | none => false
  | some r =>
    match r with
    | c :: _ =>
      isSpaceP c &&
      (let p3 := takeRun isAlphaP (r.dropWhile isSpaceP)
       p3.1.length = 3 && p3.2 = [])
    | [] => false

/-- One extracted Affinity USG row (`dict` keys `Vessel`, `Built`, `CBM`,
`Control`, `Position`, `ETA USG`, `Notes`). -/
structure AffRow where
  vessel : Str
  built : Str
  cbm : Str
  control : Str
  position : Str
  eta : Str
  notes : Str
  deriving DecidableEq, Repr

/-- `" / ".join`. -/
def joinSlash : List Str → Str
  | [] => []
  | [p] => p
  | p :: rest => p ++ str " / " ++ joinSlash rest

/-- The inner `while j < len(cells)` scan of `parse_usg_rows_from_cells`:
collect stripped position cells until an ETA cell.  `budget` counts the
non-ETA cells that may still be collected: the Python loop breaks once
`pos_parts` exceeds 12 entries, so an ETA is found iff it occurs with at
most 12 non-ETA cells before it. -/
def scanETA : List Str → ℕ → Option (List Str × Str × List Str)
  | [], _ => none
  | t :: rest, budget =>
    let tok := pstrip t
    if isEtaTok tok then some ([], tok, rest)
    else if budget = 0 then none
    else
      match scanETA rest (budget - 1) with
      | none => none
      | some (ps, e, r) => some (tok :: ps, e, r)

/-- The main loop of `parse_usg_rows_from_cells`, with explicit fuel (the
cursor advances by at least one cell per iteration, so `length + 1` fuel is
enough; fuel makes the definition reduce in the kernel). -/
def parseRowsGo : ℕ → ℕ → List Str → List AffRow
  | 0, _, _ => []
  | _ + 1, _, [] => []
  | _ + 1, _, [_] => []
  | _ + 1, _, [_, _] => []
  | _ + 1, _, [_, _, _] => []
  | fuel + 1, failures, c0 :: c1 :: c2 :: c3 :: rest =>
    let built := pstrip c1
    let cbm := pstrip c2
    if isBuiltTok built && isCbmTok cbm then
      match scanETA rest 12 with
      | none => parseRowsGo fuel failures (c1 :: c2 :: c3 :: rest)
      | some (ps, eta, r) =>
        let notes := match r with
          | [] => []
          | n :: _ => pstrip n
        let r2 := match r with
          | [] => []
          | _ :: t => t
        { vessel := pstrip c0, built := built, cbm := cbm, control := pstrip c3,
          position := joinSlash (ps.filter (fun p => p ≠ [])),
          eta := eta, notes := notes } :: parseRowsGo fuel 0 r2
    else
      if failures + 1 > 80 then []
      else parseRowsGo fuel (failures + 1) (c1 :: c2 :: c3 :: rest)

/-- `parse_usg_rows_from_cells` in `extract_affinity_tables.py`. -/
def parse_usg_rows_from_cells (cells : List Str) : List AffRow :=
  parseRowsGo (cells.length + 1) 0 cells

end Broker.Affinity

namespace Broker.Gibson

open Broker

/-- `str(x).strip().replace(",", "")` on a string input. -/
def remComma (s : Str) : Str := (pstrip s).filter (fun c => c ≠ ',')

/-- A Python `float` value as produced by `float(s)`: a finite value, a
signed infinity (e.g. from `float("inf")` or decimal overflow such as
`1e999`), or `nan`.  Finite values are kept as the exact rational of the
decimal literal; Python stores the nearest binary64 instead, which agrees
with the exact value on integral literals of magnitude up to `2 ^ 53`
(the regime the C9 theorem's value clauses are restricted to). -/
inductive PyFloat where
  | finite (q : ℚ)
  | inf (neg : Bool)
  | nan
  deriving DecidableEq, Repr

/-- A run of decimal digits in Python literal syntax: single underscores
are permitted strictly between digits (`1_000`), and are dropped from the
collected digits.  An underscore not followed by a digit (or a leading
underscore, see `digitRunU`) stays in the remainder, where the caller's
end-of-literal check rejects it — exactly how `float("1_")`, `float("1__0")`
fail. -/
def duGo : Str → Str × Str
  | [] => ([], [])
  | '_' :: rest =>
    (match rest with
     | d :: rest2 =>
       if isDigitP d then
         let p := duGo rest2
         (d :: p.1, p.2)
       else ([], '_' :: rest)
     | [] => ([], ['_']))
  | c :: rest =>
    if isDigitP c then
      let p := duGo rest
      (c :: p.1, p.2)
    else ([], c :: rest)

/-- An underscore-grouped digit run must begin with a digit: a leading
underscore yields the empty run. -/
def digitRunU (s : Str) : Str × Str :=
  match s with
  | c :: _ => if isDigitP c then duGo s else ([], s)
  | [] => ([], [])

/-- The optional exponent suffix of a `float` literal followed by the end
of input: `[eE][+-]?digits` (digits underscore-grouped) or nothing.
Returns (exponent negative?, exponent magnitude). -/
def expSuffix? : Str → Option (Bool × ℕ)
  | [] => some (false, 0)
  | c :: r =>
    if c = 'e' ∨ c = 'E' then
      let sgnRest : Bool × Str :=
        match r with
        | '+' :: rr => (false, rr)
        | '-' :: rr => (true, rr)
        | rr => (false, rr)
      let p := digitRunU sgnRest.2
      if ¬p.1 = [] ∧ p.2 = [] then some (sgnRest.1, digitsToNat p.1) else none
    else none

/-- Python `float(s)` on ASCII strings: optional surrounding whitespace,
optional sign, then `inf`/`infinity`/`nan` (case-insensitive) or a decimal
literal `digits[.digits][exponent]` with at least one mantissa digit and
underscore digit grouping.  The finite value is the exact rational
`digits * 10 ^ (exp - fraction-length)` (see `PyFloat` on how this relates
to the binary64 Python stores; overflow to `inf` on huge exponents is
likewise outside the integral regime the theorems use).  Non-ASCII inputs
(Unicode digits/whitespace) do not occur in CBM cells and are not
modelled. -/
def pyFloat? (s : Str) : Option PyFloat :=
  let t := pstrip s
  let sgnBody : Bool × Str :=
    match t with
    | '+' :: r => (false, r)
    | '-' :: r => (true, r)
    | r => (false, r)
  let neg := sgnBody.1
  let body := sgnBody.2
  let lb := lowerS body
  if lb = str "inf" ∨ lb = str "infinity" then some (.inf neg)
  else if lb = str "nan" then some .nan
  else
    let p1 := digitRunU body
    let ip := p1.1
    let frac : Str × Str :=
      match p1.2 with
      | '.' :: r => digitRunU r
      | r => ([], r)
    let fp := frac.1
    match expSuffix? frac.2 with
    | none => none
    | some (eneg, e) =>
      if ip ++ fp = [] then none
      else
        let k : ℤ := (if eneg then -(e : ℤ) else (e : ℤ)) - (fp.length : ℤ)
        let digs := digitsToNat (ip ++ fp)
        let v : ℚ :=
          if 0 ≤ k then ((digs * 10 ^ k.toNat : ℕ) : ℚ)
          else (digs : ℚ) / ((10 ^ (-k).toNat : ℕ) : ℚ)
        some (.finite (if neg then -v else v))

/-- `cbm_to_number` in `extract_gibson_tables.py` (string/None inputs).
The `x < 1000` test on the three `PyFloat` shapes follows Python float
comparison: a `nan` comparison is false, so `nan` is returned unchanged;
`+inf` is not below 1000 and is returned unchanged; `-inf` is below 1000
and scaling it by 1000 leaves it `-inf`. -/
def cbm_to_number (cbm_str : Option Str) : Option PyFloat :=
  match cbm_str with
  | none => none
  | some s0 =>
    let s := remComma s0
    if s = [] ∨ s = ['-'] ∨ s = ['*'] then none
    else
      match pyFloat? s with
      | none => none
      | some (.finite x) =>
        some (if x < 1000 then .finite (x * 1000) else .finite x)
      | some (.inf b) => some (.inf b)
      | some .nan => some .nan

/-- Word characters for regex `\b`. -/
def isWordCharP (c : Char) : Bool := isAlphaP c || isDigitP c || c = '_'

/-- Case-insensitive literal prefix match (`pat` given lower-case). -/
def matchCIAt : Str → Str → Bool
  | [], _ => true
  | _ :: _, [] => false
  | p :: ps, c :: cs => p = lowerC c && matchCIAt ps cs

/-- The literal alternatives of the next-section pattern
`(?i)\b(BLPG\d|Forward Assessment LPG|Route|Period|Year)\b`. -/
def stopPats : List Str :=
  [str "forward assessment lpg", str "route", str "period", str "year"]

/-- The character after a `\b`-terminated match must not be a word char. -/
def afterBoundary : Str → Bool
  | [] => true
  | c :: _ => !isWordCharP c

/-- Does one of the stop alternatives match at this position (with its
trailing word boundary)? -/
def matchesStopAt (s : Str) : Bool :=
  stopPats.any (fun p => matchCIAt p s && afterBoundary (s.drop p.length)) ||
  (matchCIAt (str "blpg") s &&
    (match s.drop 4 with
     | d :: rest2 => isDigitP d && afterBoundary rest2
     | [] => false))

/-- `re.search` of the next-section pattern: a match at some position whose
preceding character (tracked by `prevW`) is not a word character. -/
def hasStopWordAux (prevW : Bool) : Str → Bool
  | [] => false
  | c :: rest =>
    (!prevW && matchesStopAt (c :: rest)) || hasStopWordAux (isWordCharP c) rest

/-- `re.search(r"(?i)\b(BLPG\d|...|Year)\b", s)` as a Boolean. -/
def hasStopWord (s : Str) : Bool := hasStopWordAux false s

/-- `re.fullmatch(r"\d{4}|\*", blt)` — same pattern as Affinity's
`BUILT_RE`. -/
def isBltTokG (s : Str) : Bool := s = ['*'] || (s.length = 4 && s.all isDigitP)

/-- `re.fullmatch(r"\d{1,3}(?:,\d{3})*|\d+|\*", cbm)`: same language as
Affinity's `CBM_RE` (the zero-group case of the first branch is contained
in `\d+`). -/
def isCbmTokG (s : Str) : Bool := Affinity.isCbmTok s

/-- `.upper().replace("?", "").strip()` applied to the ETA columns. -/
def gibsonEta (s : Str) : Str := pstrip ((upperS s).filter (fun c => c ≠ '?'))

/-- One row of the Gibson WEST POSITION LIST table. -/
structure GRow where
  vessel : Str
  blt : Str
  cbm : Str
  owner : Str
  sched : Str
  etaUsg : Str
  etaMh : Str
  etaWaf : Str
  comments : Str
  deriving DecidableEq, Repr

/-- `COLS` in `extract_gibson_tables.py`. -/
def COLS_G : List Str :=
  [str "Vessel", str "BLT", str "CBM", str "OWNER", str "SCHEDULE/ITINERARY",
   str "ETA USG", str "ETA MARCUS HOOK", str "ETA WAF", str "COMMENTS"]

/-- The column-label skip loop: consume leading tokens equal (upper-cased)
to the expected column names, stopping at the first mismatch. -/
def skipColsGo : List Str → List Str → List Str
  | [], t => t
  | _ :: _, [] => []
  | col :: cols, x :: rest =>
    if upperS x = upperS col then skipColsGo cols rest else x :: rest

/-- The primary 9-line vertical row loop of `extract_west_position_table`
(`while j + 8 < len(tail)`), with fuel for kernel reduction.  On a
validation failure (`blt` or `cbm` not matching) the loop `break`s —
it does not resynchronize. -/
def gibsonVertGo : ℕ → List Str → List GRow
  | 0, _ => []
  | fuel + 1, vessel :: blt :: cbm :: owner :: sched :: eusg :: emh :: ewaf ::
      comments :: rest =>
    if hasStopWord vessel then []
    else if !isBltTokG blt then []
    else if !isCbmTokG cbm then []
    else
      { vessel := pstrip vessel, blt := pstrip blt, cbm := pstrip cbm,
        owner := pstrip owner, sched := pstrip sched, etaUsg := gibsonEta eusg,
        etaMh := gibsonEta emh, etaWaf := gibsonEta ewaf,
        comments := pstrip comments } :: gibsonVertGo fuel rest
  | _ + 1, _ => []

/-- The vertical (fixed-stride, 9 tokens per record) assembly stage of
`extract_west_position_table`, applied to the cleaned non-empty lines
after the header: optional column-label skip, then the 9-line row loop. -/
def gibsonVertical (tail : List Str) : List GRow :=
  let t1 := skipColsGo COLS_G tail
  let t2 :=
    if t1.length = tail.length ∧ tail.length ≥ 8 ∧
        (tail.take 8).map upperS = (COLS_G.drop 1).map upperS then
      tail.drop 8
    else t1
  gibsonVertGo (t2.length + 1) t2

end Broker.Gibson

namespace Broker.Poten

open Broker

/-- Split on a single separator character. -/
def splitOnChar (sep : Char) : Str → List Str
  | [] => [[]]
  | c :: rest =>
    match splitOnChar sep rest with
    | [] => [[c]]
    | h :: t => if c = sep then [] :: h :: t else (c :: h) :: t

/-- `re.split(r"\s{2,}", s)`: cut at each maximal run of two or more
whitespace characters (fuelled for kernel reduction). -/
def splitWS2Go : ℕ → Str → Str → List Str
  | 0, acc, _ => [acc.reverse]
  | _ + 1, acc, [] => [acc.reverse]
  | fuel + 1, acc, c :: rest =>
    if isSpaceP c && (match rest with
        | c2 :: _ => isSpaceP c2
        | [] => false) then
      acc.reverse :: splitWS2Go fuel [] (rest.dropWhile isSpaceP)
    else splitWS2Go fuel (c :: acc) rest

def splitWS2 (s : Str) : List Str := splitWS2Go (s.length + 1) [] s

/-- `smart_split` in `extract_poten.py`: strip, then split on tab runs if
any tab is present, else on runs of 2+ whitespace; keep stripped non-empty
parts.  (Splitting on single tabs is equivalent to splitting on tab runs
here, because the empty parts a run produces are removed by the
non-empty filter.) -/
def smart_split (line : Str) : List Str :=
  let l := pstrip line
  if l.contains '\t' then
    ((splitOnChar '\t' l).map pstrip).filter (fun p => p ≠ [])
  else
    ((splitWS2 l).map pstrip).filter (fun p => p ≠ [])

/-- Characters of the class `[A-Za-z ]`. -/
def classABSp (c : Char) : Bool := isAlphaP c || c = ' '

/-- `is_section_label`: `re.match(r"^\s*[A-Z][A-Za-z ]{1,30}\s*:\s*$",
s.strip())`.  After stripping: an upper-case letter, then a class part
`[A-Za-z ]{1,30}` followed by `\s*` and the colon.  Over the segment
`seg` up to the first colon, the class part is a prefix of some length
`L` with `max(1, core) ≤ L ≤ min(30, j)`, where `core` is `seg` without
its trailing whitespace (everything past `L` must be matched by `\s*`)
and `j` is the maximal class-satisfying prefix of `seg`; such an `L`
exists iff `1 ≤ j`, `core ≤ 30` and `core ≤ j`.  In particular a tab
directly after the `[A-Z]` (as in `A\t:`) is whitespace but not in the
class, so no label matches there. -/
def is_section_label (s : Str) : Bool :=
  match pstrip s with
  | [] => false
  | c :: rest =>
    let seg := rest.takeWhile (fun x => x ≠ ':')
    let rem := rest.dropWhile (fun x => x ≠ ':')
    let core := (seg.reverse.dropWhile isSpaceP).reverse
    let j := (seg.takeWhile classABSp).length
    isUpperP c && decide (1 ≤ j) && decide (core.length ≤ 30) &&
    decide (core.length ≤ j) &&
    (match rem with
     | ':' :: tail => tail.all isSpaceP
     | _ => false)

/-- `" ".join`. -/
def joinSpace : List Str → Str
  | [] => []
  | [p] => p
  | p :: rest => p ++ ' ' :: joinSpace rest

/-- The first (horizontal, one line per row) pass of
`extract_poten_west_rows` over the data lines: skip blank lines, stop at a
section label, split each line, skip lines with fewer than 5 parts, pad a
5-part line with an empty comment, fold parts beyond the sixth into the
comment field.  A record is its six field values in `COLS` order. -/
def horizontalRows : List Str → List (List Str)
  | [] => []
  | ln :: rest =>
    if pstrip ln = [] then horizontalRows rest
    else if is_section_label ln then []
    else
      let parts := smart_split ln
      if parts.length < 5 then horizontalRows rest
      else
        let parts2 :=
          if parts.length = 5 then parts ++ [[]]
          else if parts.length > 6 then parts.take 5 ++ [joinSpace (parts.drop 5)]
          else parts
        if parts2.length = 6 then parts2 :: horizontalRows rest
        else horizontalRows rest

end Broker.Poten

namespace Broker

/-! ## Shared lemmas -/

theorem monthMapF_range {x : Str} {m : ℕ} (h : monthMapF x = some m) :
    1 ≤ m ∧ m ≤ 12 := by
  unfold monthMapF at h
  split_ifs at h <;> (injection h with h; omega)

theorem daysInMonth_ge28 (y m : ℕ) : 28 ≤ daysInMonth y m := by
  unfold daysInMonth
  split_ifs <;> omega

theorem normCR_no_cr (s : Str) : '\r' ∉ normCR s := by
  induction s using normCR.induct <;> simp_all [normCR, eq_comm]

theorem mem_normalizeA {c : Char} {s : Str} (h : c ∈ normalizeA s) :
    c ≠ '\r' ∧ c ≠ nbspC := by
  unfold normalizeA at h
  rw [List.mem_map] at h
  obtain ⟨a, ha, hfa⟩ := h
  by_cases hn : a = nbspC
  · rw [if_pos hn] at hfa
    subst hfa
    exact ⟨by decide, by decide⟩
  · rw [if_neg hn] at hfa
    subst hfa
    exact ⟨fun hc => normCR_no_cr s (hc ▸ ha), hn⟩

theorem mem_normalizeF {c : Char} {s : Str} (h : c ∈ normalizeF s) :
    c ≠ '\r' ∧ c ≠ nbspC ∧ c ≠ enDashC ∧ c ≠ emDashC := by
  unfold normalizeF at h
  rw [List.mem_map] at h
  obtain ⟨a, ha, hfa⟩ := h
  by_cases hd : a = enDashC || a = emDashC
  · rw [if_pos hd] at hfa
    subst hfa
    exact ⟨by decide, by decide, by decide, by decide⟩
  · rw [if_neg hd] at hfa
    subst hfa
    have h2 := mem_normalizeA ha
    simp only [Bool.or_eq_true, decide_eq_true_eq, not_or] at hd
    exact ⟨h2.1, h2.2, fun he => hd.1 (by simp [he]), fun he => hd.2 (by simp [he])⟩

/-! ## Claim C8 -/

/-- Claim C8 is refuted at this input: the Affinity/Gibson normalizer
leaves the en dash untouched, so its output is not free of dash variants
(the claim asserts dash canonicalization for every broker's normalizer). -/
theorem c8_counterexample : enDashC ∈ normalizeA [enDashC] := by decide

/-- Claim C8 (amended): every broker's text normalizer is pure and total
with empty input mapped to the empty string, and its output contains no
carriage returns and no non-breaking spaces; the Fearnleys and Poten
normalizer additionally replaces en/em dashes with ASCII hyphens, but the
Affinity and Gibson normalizer leaves dash variants unchanged. -/
theorem c8_normalizer_invariants :
    (∀ s : Str, '\r' ∉ normalizeA s ∧ nbspC ∉ normalizeA s) ∧
    (∀ s : Str, '\r' ∉ normalizeF s ∧ nbspC ∉ normalizeF s ∧
      enDashC ∉ normalizeF s ∧ emDashC ∉ normalizeF s) ∧
    normalizeA [] = [] ∧ normalizeF [] = [] := by
  refine ⟨fun s => ⟨?_, ?_⟩, fun s => ⟨?_, ?_, ?_, ?_⟩, rfl, rfl⟩
  · exact fun h => (mem_normalizeA h).1 rfl
  · exact fun h => (mem_normalizeA h).2 rfl
  · exact fun h => (mem_normalizeF h).1 rfl
  · exact fun h => (mem_normalizeF h).2.1 rfl
  · exact fun h => (mem_normalizeF h).2.2.1 rfl
  · exact fun h => (mem_normalizeF h).2.2.2 rfl

/-! ## Claim C7 -/

/-- Claim C7: on the normalized text with section anchor `USG`, sub-anchor
`Notes`, and the seven cells on their own lines, the Affinity extractor
yields exactly those cells and the row assembler produces exactly one
record with the stated field values. -/
theorem c7_end_to_end :
    Affinity.extract_usg_cells
        (str "USG\nNotes\nVessel A\n2016\n83,000\nABC\nSingapore\n14-20 Mar\nclean") =
      some [str "Vessel A", str "2016", str "83,000", str "ABC", str "Singapore",
            str "14-20 Mar", str "clean"] ∧
    Affinity.parse_usg_rows_from_cells
        [str "Vessel A", str "2016", str "83,000", str "ABC", str "Singapore",
         str "14-20 Mar", str "clean"] =
      [{ vessel := str "Vessel A", built := str "2016", cbm := str "83,000",
         control := str "ABC", position := str "Singapore", eta := str "14-20 Mar",
         notes := str "clean" }] := by
  exact ⟨by decide, by decide⟩

/-! ## Claim C9 -/

/-- Claim C9: `cbm_to_number` maps `None`, empty, `-` and `*` (after
stripping spaces and commas) to `None`; a parsed number strictly below
1000 is scaled by 1000, one of 1000 or more is returned unchanged; any
non-numeric string (one `float()` rejects) yields `None`; the function is
total.  The value clauses carry the hypotheses `q.den = 1` and
`q.num.natAbs ≤ 2 ^ 40`: on that integral regime the binary64 value
Python parses, compares and scales equals the exact rational (the product
stays below `2 ^ 53`), so the rational model speaks for the program;
CBM cells are such integers.  The concrete clauses include the `float()`
forms `1e2` and `1_000` and the non-finite `inf`/`nan` results. -/
theorem c9_cbm_to_number_spec :
    Gibson.cbm_to_number none = none ∧
    Gibson.cbm_to_number (some (str "")) = none ∧
    Gibson.cbm_to_number (some (str " - ")) = none ∧
    Gibson.cbm_to_number (some (str "*")) = none ∧
    Gibson.cbm_to_number (some (str " , ")) = none ∧
    (∀ (s : Str) (q : ℚ),
      Gibson.pyFloat? (Gibson.remComma s) = some (.finite q) →
      q.den = 1 → q.num.natAbs ≤ 2 ^ 40 →
      (q < 1000 →
        Gibson.cbm_to_number (some s) = some (.finite (q * 1000))) ∧
      (1000 ≤ q → Gibson.cbm_to_number (some s) = some (.finite q))) ∧
    (∀ s : Str, Gibson.pyFloat? (Gibson.remComma s) = none →
      Gibson.cbm_to_number (some s) = none) ∧
    Gibson.cbm_to_number (some (str "83")) = some (.finite 83000) ∧
    Gibson.cbm_to_number (some (str "83,000")) = some (.finite 83000) ∧
    Gibson.cbm_to_number (some (str "1000")) = some (.finite 1000) ∧
    Gibson.cbm_to_number (some (str "1e2")) = some (.finite 100000) ∧
    Gibson.cbm_to_number (some (str "1_000")) = some (.finite 1000) ∧
    Gibson.cbm_to_number (some (str "inf")) = some (.inf false) ∧
    Gibson.cbm_to_number (some (str "nan")) = some .nan ∧
    Gibson.cbm_to_number (some (str "abc")) = none := by
  refine ⟨rfl, by decide, by decide, by decide, by decide, ?_, ?_, ?_, ?_, ?_,
    ?_, ?_, by decide, by decide, by decide⟩
  · intro s q h hden hmag
    have hs : ¬(Gibson.remComma s = [] ∨ Gibson.remComma s = ['-'] ∨
        Gibson.remComma s = ['*']) := by
      have e1 : Gibson.pyFloat? ([] : Str) = none := rfl
      have e2 : Gibson.pyFloat? ['-'] = none := rfl
      have e3 : Gibson.pyFloat? ['*'] = none := rfl
      rintro (h1 | h1 | h1) <;> rw [h1] at h
      · rw [e1] at h
        exact Option.noConfusion h
      · rw [e2] at h
        exact Option.noConfusion h
      · rw [e3] at h
        exact Option.noConfusion h
    constructor
    · intro hlt
      simp only [Gibson.cbm_to_number, if_neg hs, h]
      rw [if_pos hlt]
    · intro hge
      simp only [Gibson.cbm_to_number, if_neg hs, h]
      rw [if_neg (not_lt.mpr hge)]
  · intro s h
    by_cases hs : Gibson.remComma s = [] ∨ Gibson.remComma s = ['-'] ∨
        Gibson.remComma s = ['*']
    · simp only [Gibson.cbm_to_number, if_pos hs]
    · simp only [Gibson.cbm_to_number, if_neg hs, h]
  · calc Gibson.cbm_to_number (some (str "83")) =
        some (.finite (((83 : ℕ) : ℚ) * 1000)) := rfl
      _ = some (.finite 83000) := by norm_num
  · calc Gibson.cbm_to_number (some (str "83,000")) =
        some (.finite ((83000 : ℕ) : ℚ)) := rfl
      _ = some (.finite 83000) := by norm_num
  · calc Gibson.cbm_to_number (some (str "1000")) =
        some (.finite ((1000 : ℕ) : ℚ)) := rfl
      _ = some (.finite 1000) := by norm_num
  · calc Gibson.cbm_to_number (some (str "1e2")) =
        some (.finite (((100 : ℕ) : ℚ) * 1000)) := rfl
      _ = some (.finite 100000) := by norm_num
  · calc Gibson.cbm_to_number (some (str "1_000")) =
        some (.finite ((1000 : ℕ) : ℚ)) := rfl
      _ = some (.finite 1000) := by norm_num

/-- Witness for C9: the general clause applied at the concrete cell `77`
(integral, below the magnitude bound), scaled by 1000. -/
theorem c9_cbm_to_number_spec_witness :
    Gibson.cbm_to_number (some (str "77")) =
      some (.finite (((77 : ℕ) : ℚ) * 1000)) :=
  (c9_cbm_to_number_spec.2.2.2.2.2.1 (str "77") ((77 : ℕ) : ℚ) rfl
    (by norm_num) (by norm_num)).1 (by norm_num)

end Broker

namespace Broker

/-! ## Claim C6 -/

theorem afterAnchor_isSome_iff (p : Str → Bool) (ls : List Str) :
    (Affinity.afterAnchor p ls).isSome = true ↔ ∃ l ∈ ls, p l = true := by
  induction ls with
  | nil => simp [Affinity.afterAnchor]
  | cons x t ih =>
    by_cases h : p x = true
    · simp [Affinity.afterAnchor, h]
    · simp [Affinity.afterAnchor, h, ih]

theorem afterAnchor_eq_some_split (p : Str → Bool) (ls rest : List Str)
    (h : Affinity.afterAnchor p ls = some rest) :
    ∃ pre u, ls = pre ++ u :: rest ∧ p u = true := by
  induction ls with
  | nil => exact Option.noConfusion h
  | cons x t ih =>
    by_cases hx : p x = true
    · rw [Affinity.afterAnchor, if_pos hx] at h
      injection h with h
      exact ⟨[], x, by simp [h], hx⟩
    · rw [Affinity.afterAnchor, if_neg hx] at h
      obtain ⟨pre, u, hsp, hu⟩ := ih h
      exact ⟨x :: pre, u, by rw [hsp]; rfl, hu⟩

theorem anchors_found (p q : Str → Bool) (pre mid suf : List Str) (u v : Str)
    (hu : p u = true) (hv : q v = true) :
    ∃ r1 r2, Affinity.afterAnchor p (pre ++ u :: (mid ++ v :: suf)) = some r1 ∧
      Affinity.afterAnchor q r1 = some r2 := by
  induction pre with
  | nil =>
    have h2 : (Affinity.afterAnchor q (mid ++ v :: suf)).isSome = true :=
      (afterAnchor_isSome_iff q (mid ++ v :: suf)).mpr ⟨v, by simp, hv⟩
    obtain ⟨r2, hr2⟩ := Option.isSome_iff_exists.mp h2
    exact ⟨mid ++ v :: suf, r2, by simp [Affinity.afterAnchor, hu], hr2⟩
  | cons x pre ih =>
    by_cases hx : p x = true
    · have h2 : (Affinity.afterAnchor q (pre ++ u :: (mid ++ v :: suf))).isSome = true :=
        (afterAnchor_isSome_iff q _).mpr ⟨v, by simp, hv⟩
      obtain ⟨r2, hr2⟩ := Option.isSome_iff_exists.mp h2
      exact ⟨pre ++ u :: (mid ++ v :: suf), r2,
        by simp [Affinity.afterAnchor, hx], hr2⟩
    · obtain ⟨r1, r2, e1, e2⟩ := ih
      exact ⟨r1, r2, by simpa [Affinity.afterAnchor, hx] using e1, e2⟩

/-- Claim C6 is refuted at this input: the text `USG\nNotes` contains the
exact two-stage anchor sequence, yet the locator's window (the lines after
the second anchor) is empty, so the cell list is `some []`, not a
non-empty window. -/
theorem c6_counterexample :
    Affinity.extract_usg_cells (str "USG\nNotes") = some [] := by decide

/-- Claim C6 (amended): the two-stage locator succeeds — returning the
(possibly empty) window after the second anchor as a stripped cell list —
exactly when a `USG` anchor line is followed, later in the text, by a
`Notes` anchor line; if either anchor is absent (in that order) it
returns `NotFound` (`none`), never an exception (the function is total). -/
theorem c6_two_stage_anchor (body : Str) :
    (Affinity.extract_usg_cells body).isSome = true ↔
      ∃ pre mid suf u v,
        splitNL (normalizeA body) = pre ++ u :: (mid ++ v :: suf) ∧
        Affinity.usgLine u = true ∧ Affinity.notesLine v = true := by
  constructor
  · intro h
    simp only [Affinity.extract_usg_cells] at h
    cases h1 : Affinity.afterAnchor Affinity.usgLine (splitNL (normalizeA body)) with
    | none => rw [h1] at h; simp at h
    | some rest =>
      simp only [h1] at h
      cases h2 : Affinity.afterAnchor Affinity.notesLine rest with
      | none => simp only [h2] at h; simp at h
      | some data =>
        obtain ⟨pre, u, hsp, hu⟩ := afterAnchor_eq_some_split _ _ _ h1
        obtain ⟨pre2, v, hsp2, hv⟩ := afterAnchor_eq_some_split _ _ _ h2
        exact ⟨pre, pre2, data, u, v, by rw [hsp, hsp2], hu, hv⟩
  · rintro ⟨pre, mid, suf, u, v, hsp, hu, hv⟩
    obtain ⟨r1, r2, e1, e2⟩ := anchors_found Affinity.usgLine Affinity.notesLine
      pre mid suf u v hu hv
    simp [Affinity.extract_usg_cells, hsp, e1, e2]

end Broker

namespace Broker

/-! ## Claim C10 -/

theorem joinSpace_single (p : Str) : Poten.joinSpace [p] = p := rfl

/-- Shape of the adjusted part list in the Poten horizontal pass. -/
theorem potenParts_shape (parts : List Str) (h5 : 5 ≤ parts.length) :
    (if parts.length = 5 then parts ++ [[]]
     else if parts.length > 6 then parts.take 5 ++ [Poten.joinSpace (parts.drop 5)]
     else parts) =
      parts.take 5 ++ [Poten.joinSpace (parts.drop 5)] ∧
    (parts.take 5 ++ [Poten.joinSpace (parts.drop 5)]).length = 6 := by
  constructor
  · rcases Nat.lt_trichotomy parts.length 6 with h6 | h6 | h6
    · have he : parts.length = 5 := by omega
      rw [if_pos he]
      have ht : parts.take 5 = parts := List.take_of_length_le (by omega)
      have hd : parts.drop 5 = [] := List.drop_eq_nil_of_le (by omega)
      rw [ht, hd]
      rfl
    · rw [if_neg (by omega), if_neg (by omega)]
      have hd : (parts.drop 5).length = 1 := by
        rw [List.length_drop]
        omega
      obtain ⟨x, hx⟩ := List.length_eq_one.mp hd
      rw [hx, joinSpace_single, ← hx, List.take_append_drop]
    · rw [if_neg (by omega), if_pos h6]
  · rw [List.length_append, List.length_take]
    simp
    omega

/-- Claim C10: every record of the Poten horizontal (single-line) pass has
exactly the six schema fields: lines of fewer than 5 parts contribute
nothing (and are skipped, not fatal), 5-part lines get an empty comment
appended, and parts beyond the fifth are joined with single spaces into
the comment field, dropping nothing.  The concrete clauses check the two
sides of the section-label boundary: `A\t:` is not a section label (the
regex class cannot match the tab), so the pass skips it and still emits
the following record, while a genuine label such as `East:` ends the
pass. -/
theorem c10_poten_horizontal_shape :
    (∀ (ls : List Str) (r : List Str), r ∈ Poten.horizontalRows ls →
      r.length = 6 ∧ ∃ ln ∈ ls, 5 ≤ (Poten.smart_split ln).length ∧
        r = (Poten.smart_split ln).take 5 ++
            [Poten.joinSpace ((Poten.smart_split ln).drop 5)]) ∧
    (∀ (ln : Str) (rest : List Str), pstrip ln ≠ [] →
      Poten.is_section_label ln = false → (Poten.smart_split ln).length < 5 →
      Poten.horizontalRows (ln :: rest) = Poten.horizontalRows rest) ∧
    Poten.is_section_label (str "A\t:") = false ∧
    Poten.horizontalRows [str "A\t:", str "V\tW\tX\tY\tZ"] =
      [[str "V", str "W", str "X", str "Y", str "Z", []]] ∧
    Poten.is_section_label (str "East:") = true ∧
    Poten.horizontalRows [str "East:", str "V\tW\tX\tY\tZ"] = [] := by
  refine ⟨?_, ?_, by decide, by decide, by decide, by decide⟩
  · intro ls
    induction ls with
    | nil => intro r hr; simp [Poten.horizontalRows] at hr
    | cons ln rest ih =>
      intro r hr
      rw [Poten.horizontalRows] at hr
      by_cases hb : pstrip ln = []
      · rw [if_pos hb] at hr
        obtain ⟨h6, ln2, hmem, hlen, hshape⟩ := ih r hr
        exact ⟨h6, ln2, List.mem_cons_of_mem _ hmem, hlen, hshape⟩
      · rw [if_neg hb] at hr
        by_cases hl : Poten.is_section_label ln = true
        · simp [hl] at hr
        · rw [Bool.not_eq_true] at hl
          simp only [hl, Bool.false_eq_true, if_false] at hr
          by_cases h5 : (Poten.smart_split ln).length < 5
          · rw [if_pos h5] at hr
            obtain ⟨h6, ln2, hmem, hlen, hshape⟩ := ih r hr
            exact ⟨h6, ln2, List.mem_cons_of_mem _ hmem, hlen, hshape⟩
          · rw [if_neg h5] at hr
            have hsh := potenParts_shape (Poten.smart_split ln) (by omega)
            rw [hsh.1, if_pos hsh.2] at hr
            rcases List.mem_cons.mp hr with hr | hr
            · exact ⟨by rw [hr]; exact hsh.2, ln, List.mem_cons_self _ _,
                by omega, hr⟩
            · obtain ⟨h6, ln2, hmem, hlen, hshape⟩ := ih r hr
              exact ⟨h6, ln2, List.mem_cons_of_mem _ hmem, hlen, hshape⟩
  · intro ln rest hb hl h5
    rw [Poten.horizontalRows, if_neg hb]
    simp only [hl, Bool.false_eq_true, if_false, if_pos h5]

/-- Witness for C10: the shape theorem applied to a concrete tab-separated
line of exactly five parts — the emitted record carries the empty sixth
comment field. -/
theorem c10_poten_horizontal_shape_witness :
    ([str "Alpha", str "Bb", str "Cc", str "Dd", str "Ee", ([] : Str)] : List (List Char)).length = 6 ∧
    ∃ ln ∈ [str "Alpha\tBb\tCc\tDd\tEe"],
      5 ≤ (Poten.smart_split ln).length ∧
      [str "Alpha", str "Bb", str "Cc", str "Dd", str "Ee", ([] : Str)] =
        (Poten.smart_split ln).take 5 ++
          [Poten.joinSpace ((Poten.smart_split ln).drop 5)] :=
  c10_poten_horizontal_shape.1 [str "Alpha\tBb\tCc\tDd\tEe"]
    [str "Alpha", str "Bb", str "Cc", str "Dd", str "Ee", []] (by decide)

end Broker

namespace Broker

/-! ## Claim C4 -/

/-- Claim C4: the Fearnleys and Poten date-range resolvers are total (the
embeddings are total Lean functions over every input string and reference,
modelling the caught-exception paths as `none`) and never return a
partially populated triple: the result is fully none or fully some.  An
arithmetically invalid date such as `30-31 Apr` (day 31 in a 30-day month)
yields the fully-none triple. -/
theorem c4_resolver_all_or_none :
    (∀ (eta : Str) (ref : Option PyDateTime) (now : ℕ),
      Fearnleys.parse_eta_dates eta ref now = (none, none, none) ∨
      ∃ a b c, Fearnleys.parse_eta_dates eta ref now = (some a, some b, some c)) ∧
    (∀ (eta : Str) (ref : Option PyDateTime) (now : ℕ),
      Poten.parse_eta_range eta ref now = (none, none, none) ∨
      ∃ a b c, Poten.parse_eta_range eta ref now = (some a, some b, some c)) ∧
    (∀ (eta : Str) (ref : Option PyDateTime) (now : ℕ),
      Fearnleys.parseEtaExprF (pstrip (normalizeF eta)) = none →
      Fearnleys.parse_eta_dates eta ref now = (none, none, none)) ∧
    (∀ (eta : Str) (ref : Option PyDateTime) (now : ℕ),
      Poten.parseEtaRangeTokP (pstrip (normalizeF eta)) = none →
      Poten.parse_eta_range eta ref now = (none, none, none)) ∧
    Fearnleys.parse_eta_dates (str "30-31 Apr") (some ⟨2026, 2, 1, 0⟩) 0 =
      (none, none, none) ∧
    Poten.parse_eta_range (str "30-31 April") (some ⟨2026, 2, 1, 0⟩) 0 =
      (none, none, none) := by
  refine ⟨?_, ?_, ?_, ?_, by decide, by decide⟩
  · intro eta ref now
    unfold Fearnleys.parse_eta_dates
    dsimp only
    repeat' split
    all_goals first
      | exact Or.inl rfl
      | exact Or.inr ⟨_, _, _, rfl⟩
  · intro eta ref now
    unfold Poten.parse_eta_range
    dsimp only
    repeat' split
    all_goals first
      | exact Or.inl rfl
      | exact Or.inr ⟨_, _, _, rfl⟩
  · intro eta ref now h
    unfold Fearnleys.parse_eta_dates
    split
    · rfl
    · rw [h]
  · intro eta ref now h
    unfold Poten.parse_eta_range
    split
    · rfl
    · rw [h]

/-- Witness for C4: both resolvers yield the fully-none triple on an
unrecognized expression. -/
theorem c4_resolver_all_or_none_witness :
    Fearnleys.parse_eta_dates (str "no eta here") (some ⟨2026, 1, 1, 0⟩) 5 =
      (none, none, none) ∧
    Poten.parse_eta_range (str "no eta here") none 5 = (none, none, none) :=
  ⟨c4_resolver_all_or_none.2.2.1 (str "no eta here")
      (some ⟨2026, 1, 1, 0⟩) 5 (by decide),
    c4_resolver_all_or_none.2.2.2.1 (str "no eta here") none 5
      (by decide)⟩

end Broker

namespace Broker

/-! ## Claim C1 -/

/-- Claim C1: for a valid explicit `D1-D2 Mon` expression with
`1 ≤ D1 ≤ D2`, both days valid for the month, and a reference whose year
needs no December-to-January rollover (and is a representable year), the
Fearnleys resolver returns start = (Y, Mon, D1), end = (Y, Mon, D2), and a
midpoint strictly between them — equal to the start when `D1 = D2`. -/
theorem c1_explicit_day_range (s : Str) (r : PyDateTime) (now d1 d2 month : ℕ)
    (mon : Str)
    (hp : Fearnleys.parseEtaExprF (pstrip (normalizeF s)) =
      some (.range d1 d2 mon))
    (hm : monthMapF (lowerS mon) = some month)
    (hroll : ¬(r.month = 12 ∧ month = 1))
    (hy1 : 1 ≤ r.year) (hy2 : r.year ≤ 9999)
    (hd1 : 1 ≤ d1) (hdle : d1 ≤ d2) (hd2 : d2 ≤ daysInMonth r.year month) :
    Fearnleys.parse_eta_dates s (some r) now =
      (some ⟨r.year, month, d1, 0⟩, some ⟨r.year, month, d2, 0⟩,
        some ⟨r.year, month, (d1 + d2) / 2, 12 * ((d1 + d2) % 2)⟩) ∧
    (d1 < d2 →
      dtLt ⟨r.year, month, d1, 0⟩
        ⟨r.year, month, (d1 + d2) / 2, 12 * ((d1 + d2) % 2)⟩ ∧
      dtLt ⟨r.year, month, (d1 + d2) / 2, 12 * ((d1 + d2) % 2)⟩
        ⟨r.year, month, d2, 0⟩) ∧
    (d1 = d2 →
      (⟨r.year, month, (d1 + d2) / 2, 12 * ((d1 + d2) % 2)⟩ : PyDateTime) =
        ⟨r.year, month, d1, 0⟩) := by
  have hs : ¬s = [] := by
    intro he
    rw [he, show Fearnleys.parseEtaExprF (pstrip (normalizeF [])) = none from rfl]
      at hp
    exact Option.noConfusion hp
  have hmr := monthMapF_range hm
  have hyear : Fearnleys.infer_year now (some r) month = r.year := by
    simp only [Fearnleys.infer_year]
    rw [if_neg hroll]
  have hmk1 : mkDatetime? r.year month d1 = some ⟨r.year, month, d1, 0⟩ := by
    unfold mkDatetime?
    rw [if_pos ⟨hy1, hy2, hmr.1, hmr.2, hd1, le_trans hdle hd2⟩]
  have hmk2 : mkDatetime? r.year month d2 = some ⟨r.year, month, d2, 0⟩ := by
    unfold mkDatetime?
    rw [if_pos ⟨hy1, hy2, hmr.1, hmr.2, le_trans hd1 hdle, hd2⟩]
  refine ⟨?_, ?_, ?_⟩
  · unfold Fearnleys.parse_eta_dates
    rw [if_neg hs]
    simp only [hp, hm]
    rw [hyear, hmk1, hmk2]
    rfl
  · intro hlt
    constructor <;> (unfold dtLt; dsimp only; omega)
  · intro he
    subst he
    have h2 : (d1 + d1) / 2 = d1 := by omega
    have h3 : 12 * ((d1 + d1) % 2) = 0 := by omega
    rw [h2, h3]

/-- Witness for C1 at the concrete expression `14-20 Mar` with reference
date 2026-02-27. -/
theorem c1_explicit_day_range_witness :
    Fearnleys.parse_eta_dates (str "14-20 Mar") (some ⟨2026, 2, 27, 0⟩) 0 =
      (some ⟨2026, 3, 14, 0⟩, some ⟨2026, 3, 20, 0⟩,
        some ⟨2026, 3, (14 + 20) / 2, 12 * ((14 + 20) % 2)⟩) ∧
    (14 < 20 →
      dtLt ⟨2026, 3, 14, 0⟩ ⟨2026, 3, (14 + 20) / 2, 12 * ((14 + 20) % 2)⟩ ∧
      dtLt ⟨2026, 3, (14 + 20) / 2, 12 * ((14 + 20) % 2)⟩ ⟨2026, 3, 20, 0⟩) ∧
    (14 = 20 →
      (⟨2026, 3, (14 + 20) / 2, 12 * ((14 + 20) % 2)⟩ : PyDateTime) =
        ⟨2026, 3, 14, 0⟩) :=
  c1_explicit_day_range (str "14-20 Mar") ⟨2026, 2, 27, 0⟩ 0 14 20 3
    (str "Mar") (by decide) (by decide) (by decide) (by decide) (by decide)
    (by decide) (by decide) (by decide)

end Broker

namespace Broker

/-! ## Claim C3 -/

/-- Claim C3 is refuted for the Affinity resolver: with reference date
2025-12-20 and expression `05-06 Jan`, `parse_eta_range` in
`extract_affinity_tables.py` uses the email year as-is (no
December-to-January rollover) and returns start 2025-01-05, not
2026-01-05 as the claim requires of every broker parser. -/
theorem c3_counterexample :
    Affinity.parse_eta_range 0 (str "05-06 Jan") (str "2025-12-20 10:30:00") =
      some (some ⟨2025, 1, 5, 0⟩, some ⟨2025, 1, 6, 0⟩) ∧
    (⟨2025, 1, 5, 0⟩ : PyDateTime) ≠ ⟨2026, 1, 5, 0⟩ := by
  exact ⟨by decide, by decide⟩

/-- Claim C3 (amended): the December-to-January rollover (reference month
12 and parsed month January imply year + 1) holds for the Fearnleys and
Poten resolvers, which share `infer_year`; with no reference the current
processing year is used.  The Affinity (and Gibson) resolvers use the
reference year unchanged. -/
theorem c3_year_rollover (s : Str) (r : PyDateTime) (now d1 d2 : ℕ) (mon : Str)
    (hp : Fearnleys.parseEtaExprF (pstrip (normalizeF s)) =
      some (.range d1 d2 mon))
    (hm : monthMapF (lowerS mon) = some 1)
    (hdec : r.month = 12) (hy : r.year + 1 ≤ 9999)
    (hn1 : 1 ≤ now) (hn2 : now ≤ 9999)
    (hd1 : 1 ≤ d1) (hd1b : d1 ≤ 31) (hd2a : 1 ≤ d2) (hd2b : d2 ≤ 31) :
    Fearnleys.parse_eta_dates s (some r) now =
      (some ⟨r.year + 1, 1, d1, 0⟩, some ⟨r.year + 1, 1, d2, 0⟩,
        some ⟨r.year + 1, 1, (d1 + d2) / 2, 12 * ((d1 + d2) % 2)⟩) ∧
    Fearnleys.parse_eta_dates s none now =
      (some ⟨now, 1, d1, 0⟩, some ⟨now, 1, d2, 0⟩,
        some ⟨now, 1, (d1 + d2) / 2, 12 * ((d1 + d2) % 2)⟩) ∧
    Poten.parse_eta_range (str "05-06 Jan") (some ⟨2025, 12, 20, 0⟩) 0 =
      (some ⟨2026, 1, 5, 0⟩, some ⟨2026, 1, 6, 0⟩, some ⟨2026, 1, 5, 12⟩) := by
  have hs : ¬s = [] := by
    intro he
    rw [he, show Fearnleys.parseEtaExprF (pstrip (normalizeF [])) = none from rfl]
      at hp
    exact Option.noConfusion hp
  have hdim : ∀ y : ℕ, daysInMonth y 1 = 31 := fun y => rfl
  refine ⟨?_, ?_, by decide⟩
  · have hyear : Fearnleys.infer_year now (some r) 1 = r.year + 1 := by
      simp only [Fearnleys.infer_year]
      rw [if_pos ⟨hdec, trivial⟩]
    have hmk1 : mkDatetime? (r.year + 1) 1 d1 = some ⟨r.year + 1, 1, d1, 0⟩ := by
      unfold mkDatetime?
      rw [if_pos ⟨by omega, hy, by omega, by omega, hd1, by rw [hdim]; exact hd1b⟩]
    have hmk2 : mkDatetime? (r.year + 1) 1 d2 = some ⟨r.year + 1, 1, d2, 0⟩ := by
      unfold mkDatetime?
      rw [if_pos ⟨by omega, hy, by omega, by omega, hd2a, by rw [hdim]; exact hd2b⟩]
    unfold Fearnleys.parse_eta_dates
    rw [if_neg hs]
    simp only [hp, hm]
    rw [hyear, hmk1, hmk2]
    rfl
  · have hyear : Fearnleys.infer_year now none 1 = now := rfl
    have hmk1 : mkDatetime? now 1 d1 = some ⟨now, 1, d1, 0⟩ := by
      unfold mkDatetime?
      rw [if_pos ⟨hn1, hn2, by omega, by omega, hd1, by rw [hdim]; exact hd1b⟩]
    have hmk2 : mkDatetime? now 1 d2 = some ⟨now, 1, d2, 0⟩ := by
      unfold mkDatetime?
      rw [if_pos ⟨hn1, hn2, by omega, by omega, hd2a, by rw [hdim]; exact hd2b⟩]
    unfold Fearnleys.parse_eta_dates
    rw [if_neg hs]
    simp only [hp, hm]
    rw [hyear, hmk1, hmk2]
    rfl

/-- Witness for C3 at `05-06 Jan` with reference 2025-12-20 (and
processing year 2026 for the no-reference clause). -/
theorem c3_year_rollover_witness :
    Fearnleys.parse_eta_dates (str "05-06 Jan") (some ⟨2025, 12, 20, 0⟩) 2026 =
      (some ⟨2025 + 1, 1, 5, 0⟩, some ⟨2025 + 1, 1, 6, 0⟩,
        some ⟨2025 + 1, 1, (5 + 6) / 2, 12 * ((5 + 6) % 2)⟩) ∧
    Fearnleys.parse_eta_dates (str "05-06 Jan") none 2026 =
      (some ⟨2026, 1, 5, 0⟩, some ⟨2026, 1, 6, 0⟩,
        some ⟨2026, 1, (5 + 6) / 2, 12 * ((5 + 6) % 2)⟩) ∧
    Poten.parse_eta_range (str "05-06 Jan") (some ⟨2025, 12, 20, 0⟩) 0 =
      (some ⟨2026, 1, 5, 0⟩, some ⟨2026, 1, 6, 0⟩, some ⟨2026, 1, 5, 12⟩) :=
  c3_year_rollover (str "05-06 Jan") ⟨2025, 12, 20, 0⟩ 2026 5 6 (str "Jan")
    (by decide) (by decide) (by decide) (by decide) (by decide) (by decide)
    (by decide) (by decide) (by decide) (by decide)

/-! ## Claim C2 -/

/-- Claim C2 is refuted at `Late Feb` with reference year 2028 (a leap
year): `RELATIVE_BUCKETS` caps the `late` bucket at day 28 before the
month-end clamp, so the resolver returns end day 28, not the month end 29
the claim requires. -/
theorem c2_counterexample :
    Fearnleys.parse_eta_dates (str "Late Feb") (some ⟨2028, 1, 15, 0⟩) 0 =
      (some ⟨2028, 2, 21, 0⟩, some ⟨2028, 2, 28, 0⟩, some ⟨2028, 2, 24, 12⟩) ∧
    isLeap 2028 = true ∧ daysInMonth 2028 2 = 29 ∧ (28 : ℕ) ≠ 29 := by
  exact ⟨by decide, by decide, by decide, by decide⟩

/-- Claim C2 (amended): the relative buckets resolve to early = [1, 10],
mid = [11, 20], late = [21, min(28, month end)], end = [25, min(31, month
end)] — the upper bound is the bucket's own cap clamped to the month end,
so `Late Feb` ends on day 28 in leap years as well as non-leap years
(only the `end` bucket actually reaches a 31-day month's end). -/
theorem c2_relative_buckets (s : Str) (ref : Option PyDateTime) (now : ℕ)
    (b : Fearnleys.BucketF) (mon : Str) (month : ℕ)
    (hp : Fearnleys.parseEtaExprF (pstrip (normalizeF s)) =
      some (.bucket b mon))
    (hm : monthMapF (lowerS mon) = some month)
    (hy1 : 1 ≤ Fearnleys.infer_year now ref month)
    (hy2 : Fearnleys.infer_year now ref month ≤ 9999) :
    Fearnleys.parse_eta_dates s ref now =
      (some ⟨Fearnleys.infer_year now ref month, month,
          (Fearnleys.RELATIVE_BUCKETS b).1, 0⟩,
        some ⟨Fearnleys.infer_year now ref month, month,
          min (Fearnleys.RELATIVE_BUCKETS b).2
            (daysInMonth (Fearnleys.infer_year now ref month) month), 0⟩,
        some (midSameMonth
          ⟨Fearnleys.infer_year now ref month, month,
            (Fearnleys.RELATIVE_BUCKETS b).1, 0⟩
          ⟨Fearnleys.infer_year now ref month, month,
            min (Fearnleys.RELATIVE_BUCKETS b).2
              (daysInMonth (Fearnleys.infer_year now ref month) month), 0⟩)) ∧
    Fearnleys.parse_eta_dates (str "Late Feb") (some ⟨2026, 1, 15, 0⟩) 0 =
      (some ⟨2026, 2, 21, 0⟩, some ⟨2026, 2, 28, 0⟩, some ⟨2026, 2, 24, 12⟩) := by
  have hs : ¬s = [] := by
    intro he
    rw [he, show Fearnleys.parseEtaExprF (pstrip (normalizeF [])) = none from rfl]
      at hp
    exact Option.noConfusion hp
  have hmr := monthMapF_range hm
  have hdim := daysInMonth_ge28 (Fearnleys.infer_year now ref month) month
  have hb1 : 1 ≤ (Fearnleys.RELATIVE_BUCKETS b).1 ∧
      (Fearnleys.RELATIVE_BUCKETS b).1 ≤ 28 := by
    cases b <;> exact ⟨by decide, by decide⟩
  have hb2 : 10 ≤ (Fearnleys.RELATIVE_BUCKETS b).2 := by
    cases b <;> decide
  have hmk1 : mkDatetime? (Fearnleys.infer_year now ref month) month
      (Fearnleys.RELATIVE_BUCKETS b).1 =
      some ⟨Fearnleys.infer_year now ref month, month,
        (Fearnleys.RELATIVE_BUCKETS b).1, 0⟩ := by
    unfold mkDatetime?
    rw [if_pos ⟨hy1, hy2, hmr.1, hmr.2, hb1.1, by omega⟩]
  have hmk2 : mkDatetime? (Fearnleys.infer_year now ref month) month
      (min (Fearnleys.RELATIVE_BUCKETS b).2
        (daysInMonth (Fearnleys.infer_year now ref month) month)) =
      some ⟨Fearnleys.infer_year now ref month, month,
        min (Fearnleys.RELATIVE_BUCKETS b).2
          (daysInMonth (Fearnleys.infer_year now ref month) month), 0⟩ := by
    unfold mkDatetime?
    rw [if_pos ⟨hy1, hy2, hmr.1, hmr.2, by omega, by omega⟩]
  refine ⟨?_, by decide⟩
  unfold Fearnleys.parse_eta_dates
  rw [if_neg hs]
  simp only [hp, hm, month_end_day]
  rw [hmk1, hmk2]

/-- Witness for C2 at `End Mar` with reference 2026-02-27: the `end`
bucket yields [25, min(31, 31)] = [25, 31]. -/
theorem c2_relative_buckets_witness :
    Fearnleys.parse_eta_dates (str "End Mar") (some ⟨2026, 2, 27, 0⟩) 0 =
      (some ⟨Fearnleys.infer_year 0 (some ⟨2026, 2, 27, 0⟩) 3, 3,
          (Fearnleys.RELATIVE_BUCKETS .endOfMonth).1, 0⟩,
        some ⟨Fearnleys.infer_year 0 (some ⟨2026, 2, 27, 0⟩) 3, 3,
          min (Fearnleys.RELATIVE_BUCKETS .endOfMonth).2
            (daysInMonth (Fearnleys.infer_year 0 (some ⟨2026, 2, 27, 0⟩) 3) 3), 0⟩,
        some (midSameMonth
          ⟨Fearnleys.infer_year 0 (some ⟨2026, 2, 27, 0⟩) 3, 3,
            (Fearnleys.RELATIVE_BUCKETS .endOfMonth).1, 0⟩
          ⟨Fearnleys.infer_year 0 (some ⟨2026, 2, 27, 0⟩) 3, 3,
            min (Fearnleys.RELATIVE_BUCKETS .endOfMonth).2
              (daysInMonth (Fearnleys.infer_year 0 (some ⟨2026, 2, 27, 0⟩) 3) 3), 0⟩)) ∧
    Fearnleys.parse_eta_dates (str "Late Feb") (some ⟨2026, 1, 15, 0⟩) 0 =
      (some ⟨2026, 2, 21, 0⟩, some ⟨2026, 2, 28, 0⟩, some ⟨2026, 2, 24, 12⟩) :=
  c2_relative_buckets (str "End Mar") (some ⟨2026, 2, 27, 0⟩) 0 .endOfMonth
    (str "Mar") 3 (by decide) (by decide) (by decide) (by decide)

end Broker

namespace Broker

/-! ## Claim C5 -/

/-- Claim C5 is refuted for fixed-stride assembly: on a Gibson token
stream whose first 9-token record has a corrupted `BLT` field (`20XX`),
the vertical assembler `break`s instead of advancing one token, returning
no rows at all — although the second, well-formed record is parsed fine on
its own (second conjunct). -/
theorem c5_counterexample :
    Gibson.gibsonVertical
        [str "Vessel A", str "20XX", str "83,000", str "OwnerX",
         str "ex Houston", str "14-15 MAR", str "-", str "-", str "ok",
         str "Vessel B", str "2016", str "83,000", str "OwnerY",
         str "ex Galveston", str "03-05 APR", str "-", str "-", str "fine"] =
      [] ∧
    Gibson.gibsonVertical
        [str "Vessel B", str "2016", str "83,000", str "OwnerY",
         str "ex Galveston", str "03-05 APR", str "-", str "-", str "fine"] =
      [{ vessel := str "Vessel B", blt := str "2016", cbm := str "83,000",
         owner := str "OwnerY", sched := str "ex Galveston",
         etaUsg := str "03-05 APR", etaMh := str "-", etaWaf := str "-",
         comments := str "fine" }] := by
  exact ⟨by decide, by decide⟩

/-- Claim C5 (amended): the Affinity variable-middle assembler recovers
from one record with a corrupted `Built` field by advancing the cursor one
token at a time, and still extracts the well-formed records before and
after it, provided no misaligned window accidentally validates (here: no
token of the corrupted record nor the next vessel name looks like a
`Built` value).  The Gibson fixed-stride assembler instead aborts at the
first invalid record (see the counterexample). -/
theorem c5_variable_middle_recovery
    (v1 b1 c1 k1 p1 e1 n1 v2 b2 c2 k2 p2 e2 n2 v3 b3 c3 k3 p3 e3 n3 : Str)
    (hb1 : Affinity.isBuiltTok (pstrip b1) = true)
    (hc1 : Affinity.isCbmTok (pstrip c1) = true)
    (hp1 : Affinity.isEtaTok (pstrip p1) = false)
    (he1 : Affinity.isEtaTok (pstrip e1) = true)
    (hb2 : Affinity.isBuiltTok (pstrip b2) = false)
    (hb3 : Affinity.isBuiltTok (pstrip b3) = true)
    (hc3 : Affinity.isCbmTok (pstrip c3) = true)
    (hp3 : Affinity.isEtaTok (pstrip p3) = false)
    (he3 : Affinity.isEtaTok (pstrip e3) = true)
    (hx1 : Affinity.isBuiltTok (pstrip c2) = false)
    (hx2 : Affinity.isBuiltTok (pstrip k2) = false)
    (hx3 : Affinity.isBuiltTok (pstrip p2) = false)
    (hx4 : Affinity.isBuiltTok (pstrip e2) = false)
    (hx5 : Affinity.isBuiltTok (pstrip n2) = false)
    (hx6 : Affinity.isBuiltTok (pstrip v3) = false) :
    Affinity.parse_usg_rows_from_cells
        [v1, b1, c1, k1, p1, e1, n1, v2, b2, c2, k2, p2, e2, n2,
         v3, b3, c3, k3, p3, e3, n3] =
      [{ vessel := pstrip v1, built := pstrip b1, cbm := pstrip c1,
         control := pstrip k1,
         position := Affinity.joinSlash ([pstrip p1].filter (fun x => x ≠ [])),
         eta := pstrip e1, notes := pstrip n1 },
       { vessel := pstrip v3, built := pstrip b3, cbm := pstrip c3,
         control := pstrip k3,
         position := Affinity.joinSlash ([pstrip p3].filter (fun x => x ≠ [])),
         eta := pstrip e3, notes := pstrip n3 }] := by
  simp [Affinity.parse_usg_rows_from_cells, Affinity.parseRowsGo,
    Affinity.scanETA, hb1, hc1, hp1, he1, hb2, hb3, hc3, hp3, he3,
    hx1, hx2, hx3, hx4, hx5, hx6]

/-- Witness for C5: the recovery theorem at a concrete stream whose middle
record carries the corrupted year `20XX`; records A and C are extracted,
record B is skipped. -/
theorem c5_variable_middle_recovery_witness :
    Affinity.parse_usg_rows_from_cells
        [str "Vessel A", str "2016", str "83,000", str "ABC", str "Singapore",
         str "14-20 Mar", str "clean",
         str "Vessel B", str "20XX", str "77,000", str "DEF", str "Houston",
         str "01-02 Apr", str "ok",
         str "Vessel C", str "2018", str "91,000", str "GHI", str "Tokyo",
         str "05-06 May", str "fine"] =
      [{ vessel := pstrip (str "Vessel A"), built := pstrip (str "2016"),
         cbm := pstrip (str "83,000"), control := pstrip (str "ABC"),
         position := Affinity.joinSlash
           ([pstrip (str "Singapore")].filter (fun x => x ≠ [])),
         eta := pstrip (str "14-20 Mar"), notes := pstrip (str "clean") },
       { vessel := pstrip (str "Vessel C"), built := pstrip (str "2018"),
         cbm := pstrip (str "91,000"), control := pstrip (str "GHI"),
         position := Affinity.joinSlash
           ([pstrip (str "Tokyo")].filter (fun x => x ≠ [])),
         eta := pstrip (str "05-06 May"), notes := pstrip (str "fine") }] :=
  c5_variable_middle_recovery (str "Vessel A") (str "2016") (str "83,000")
    (str "ABC") (str "Singapore") (str "14-20 Mar") (str "clean")
    (str "Vessel B") (str "20XX") (str "77,000") (str "DEF") (str "Houston")
    (str "01-02 Apr") (str "ok") (str "Vessel C") (str "2018") (str "91,000")
    (str "GHI") (str "Tokyo") (str "05-06 May") (str "fine")
    (by decide) (by decide) (by decide) (by decide) (by decide) (by decide)
    (by decide) (by decide) (by decide) (by decide) (by decide) (by decide)
    (by decide) (by decide) (by decide)

end Broker
